import Mathlib

/-!
Verification of the wiz_lights discovery-and-control core
(colors.py, network.py, controls.py, __main__.py).

The Python source is shallowly embedded: pure functions become Lean
functions, the UDP transport and the JSON parser are passed in as explicit
function parameters (so every possible per-address outcome can be
quantified over), Python floats are modelled as real numbers, and the
Python `int()` truncation and `%` on floats are modelled explicitly.
-/

namespace WizLights

/-- Python `int()` applied to a float: truncation toward zero. -/
noncomputable def pyInt (x : ℝ) : ℤ := if 0 ≤ x then ⌊x⌋ else ⌈x⌉

/-- Python `%` on floats with a positive modulus: `x % m = x - m * floor (x / m)`,
so the result always lies in `[0, m)`. -/
noncomputable def pyMod (x m : ℝ) : ℝ := x - m * ⌊x / m⌋

/-- JSON values as returned by `json.loads` (numbers modelled as integers;
the replies the scanner handles carry no fractional numbers). -/
inductive JVal where
  | null : JVal
  | bool : Bool → JVal
  | num : Int → JVal
  | str : String → JVal
  | arr : List JVal → JVal
  | obj : List (String × JVal) → JVal

/-- Python truthiness of a decoded JSON value: `None`, `False`, `0`, `""`,
`[]` and the empty object are falsy, everything else truthy. -/
def JVal.truthy : JVal → Bool
  | .null => false
  | .bool b => b
  | .num n => n != 0
  | .str s => s != ""
  | .arr [] => false
  | .arr (_ :: _) => true
  | .obj [] => false
  | .obj (_ :: _) => true

/-! ## colors.py (floats modelled as real numbers) -/

open Classical

/-- The standard library function `colorsys.hsv_to_rgb`, as called by
`hsv_to_rgb_255`: six hue sectors selected by `i = int(h*6.0) % 6`, with
`f` computed from the pre-modulo `int(h*6.0)`. After the `i == 5` test the
source cannot fall through, because `i % 6` lies in `[0, 6)`; the final
branch of the embedding is that `i == 5` case. -/
noncomputable def colorsys_hsv_to_rgb (h s v : ℝ) : ℝ × ℝ × ℝ :=
  if s = 0 then (v, v, v)
  else
    let i0 := pyInt (h * 6)
    let f := h * 6 - i0
    let p := v * (1 - s)
    let q := v * (1 - s * f)
    let t := v * (1 - s * (1 - f))
    let i := i0 % 6
    if i = 0 then (v, t, p)
    else if i = 1 then (q, v, p)
    else if i = 2 then (p, v, t)
    else if i = 3 then (p, q, v)
    else if i = 4 then (t, p, v)
    else (v, p, q)

/-- `hsv_to_rgb_255`: reduce the hue into `[0, 360)` with Python `%`, scale
to `[0, 1)`, convert, and truncate each channel times 255 to an integer. -/
noncomputable def hsv_to_rgb_255 (h_deg s v : ℝ) : ℤ × ℤ × ℤ :=
  let h := pyMod h_deg 360 / 360
  let rgb := colorsys_hsv_to_rgb h s v
  (pyInt (rgb.1 * 255), pyInt (rgb.2.1 * 255), pyInt (rgb.2.2 * 255))

/-- The `max(1000, min(40000, kelvin))` clamp opening `kelvin_to_rgb_255`. -/
def clamp_kelvin (kelvin : ℤ) : ℤ := max 1000 (min 40000 kelvin)

/-- `kelvin_to_rgb_255` (Tanner Helland fit): `temp` is the clamped input
over 100; red is 255 up to `temp = 66` and a clamped power fit above; green
is a clamped log fit below 66 and a clamped power fit above; blue is 255
from 66 up, 0 up to 19, and a clamped log fit between. Every channel is
truncated by `int()` at the end. `math.log` and `**` act on positive
arguments throughout (`temp` is at least 10), matching `Real.log` and real
exponentiation. -/
noncomputable def kelvin_to_rgb_255 (kelvin : ℤ) : ℤ × ℤ × ℤ :=
  let temp : ℝ := (clamp_kelvin kelvin : ℝ) / 100
  (pyInt (if temp ≤ 66 then 255
      else max 0 (min 255 (329.698727446 * (temp - 60) ^ (-0.1332047592 : ℝ)))),
   pyInt (max 0 (min 255 (if temp ≤ 66 then
        99.4708025861 * Real.log temp - 161.1195681661
      else 288.1221695283 * (temp - 60) ^ (-0.0755148492 : ℝ)))),
   pyInt (if 66 ≤ temp then 255
      else if temp ≤ 19 then 0
      else max 0 (min 255 (138.5177312231 * Real.log (temp - 10) - 305.0447927307))))

/-- All three channels of an integer RGB triple within `[0, 255]`. -/
def rgb_in_range (c : ℤ × ℤ × ℤ) : Prop :=
  0 ≤ c.1 ∧ c.1 ≤ 255 ∧ 0 ≤ c.2.1 ∧ c.2.1 ≤ 255 ∧ 0 ≤ c.2.2 ∧ c.2.2 ≤ 255

/-! ## network.py -/

/-- The lenient slice of `probe_ip`: `idx = dec.find("\x7b")`,
and `dec = dec[idx:]` only when a brace was found (`idx != -1`);
a reply with no opening brace is passed through whole. -/
def lenient_slice (dec : List Char) : List Char :=
  if '{' ∈ dec then dec.dropWhile (fun c => c ≠ '{') else dec

/-- The decoding tail of `probe_ip`: parse the reply text from the first
opening brace; on a parse error return the sentinel object keeping the whole
decoded reply under the key `_raw`. `json.loads` is the explicit `parse`
parameter; the reply bytes are modelled after `data.decode("utf-8",
errors="ignore")`, which never raises, as a list of characters. (The innermost
source fallback to a `<binary>` placeholder guards a decode call that
cannot fail with `errors="ignore"`, so it is unreachable.) -/
def decode_reply (parse : List Char → Option JVal) (data : List Char) : JVal :=
  match parse (lenient_slice data) with
  | some obj => obj
  | none => JVal.obj [("_raw", JVal.str (String.mk data))]

/-- `probe_ip`: the socket interaction is the explicit `reply` outcome —
`none` models a timeout or any transport error (the source returns `None`
from both `except` arms), `some data` models a received datagram. -/
def probe_ip (parse : List Char → Option JVal) (reply : Option (List Char)) :
    Option JVal :=
  match reply with
  | none => none
  | some data => some (decode_reply parse data)

/-- `scan_ip_range`: probe every address, and record `discovered[ip] = res`
only when `if res:` holds — `res` not `None` and truthy. The source collects
completions from a thread pool in arbitrary order; only the key set of the
resulting table is specified, so the embedding fixes the submission order. -/
def scan_ip_range (parse : List Char → Option JVal)
    (transport : String → Option (List Char)) (ips : List String) :
    List (String × JVal) :=
  match ips with
  | [] => []
  | ip :: rest =>
    match probe_ip parse (transport ip) with
    | some res =>
      if res.truthy then (ip, res) :: scan_ip_range parse transport rest
      else scan_ip_range parse transport rest
    | none => scan_ip_range parse transport rest

/-- The key set of a DeviceTable (`discovered.keys()`). -/
def table_keys (t : List (String × JVal)) : List String := t.map Prod.fst

/-- The `params` object of the `setPilot` payload built by `set_color_rgb`. -/
structure SetPilotParams where
  r : Int
  g : Int
  b : Int
  transition : Int
  dimming : Int
  deriving DecidableEq

/-- `set_color_rgb` payload construction: the five arguments are placed in
the payload verbatim. -/
def set_color_rgb_payload (r g b transition dimming : Int) : SetPilotParams :=
  { r := r, g := g, b := b, transition := transition, dimming := dimming }

/-- All payload fields within the documented device ranges. -/
def params_in_range (p : SetPilotParams) : Prop :=
  0 ≤ p.r ∧ p.r ≤ 255 ∧ 0 ≤ p.g ∧ p.g ≤ 255 ∧ 0 ≤ p.b ∧ p.b ≤ 255 ∧
    0 ≤ p.dimming ∧ p.dimming ≤ 100 ∧ 0 ≤ p.transition

instance (p : SetPilotParams) : Decidable (params_in_range p) := by
  unfold params_in_range; infer_instance

/-- One UDP send attempt as performed by `send_udp`. `delivered = false`
models `s.sendto` raising; the bare `except: pass` swallows it, so the
attempt happens and nothing propagates either way. -/
structure SendAttempt where
  ip : String
  payload : SetPilotParams
  delivered : Bool
  deriving DecidableEq

/-- `send_udp`: one transmission attempt per call, outcome given by the
explicit per-address `outcome` function, errors discarded silently. -/
def send_udp (outcome : String → Bool) (ip : String) (payload : SetPilotParams) :
    SendAttempt :=
  { ip := ip, payload := payload, delivered := outcome ip }

/-- `set_color_rgb`: build the `setPilot` payload and hand it to `send_udp`. -/
def set_color_rgb (outcome : String → Bool) (ip : String)
    (r g b transition dimming : Int) : SendAttempt :=
  send_udp outcome ip (set_color_rgb_payload r g b transition dimming)

/-! ## controls.py -/

/-- `run_rgba`: one `set_color_rgb` per address of the selection, in order,
with transition 0 and the requested dimming. -/
def run_rgba (outcome : String → Bool) (ips : List String)
    (r g b dimming : Int) : List SendAttempt :=
  ips.map (fun ip => set_color_rgb outcome ip r g b 0 dimming)

/-- `SEND_INTERVAL` of controls.py, in milliseconds. -/
def sendIntervalMs : Nat := 120

/-- The externally visible events of one continuous-effect loop iteration:
a `stop_event.is_set()` poll, one round of `set_color_rgb` dispatches to the
selection, or a `time.sleep` of the given duration in milliseconds. -/
inductive EffectEv where
  | checkStop : EffectEv
  | sendColor : EffectEv
  | sleepMs : Nat → EffectEv
  deriving DecidableEq

/-- One flash of the strobe in `run_spooky`: white to every light, sleep 0.06 s,
black to every light, sleep 0.06 s — with no `stop_event` check anywhere. -/
def strobeFlash : List EffectEv :=
  [EffectEv.sendColor, EffectEv.sleepMs 60, EffectEv.sendColor, EffectEv.sleepMs 60]

/-- A `run_spooky` loop iteration that takes the strobe branch: the single
`stop_event` poll at the top, then `for flash in range(3)` flashes. -/
def spookyStrobeIter : List EffectEv :=
  EffectEv.checkStop :: (strobeFlash ++ strobeFlash ++ strobeFlash)

/-- A `run_spooky` loop iteration on the ordinary path: the `stop_event`
poll, one dispatch round to the selection, then `time.sleep(SEND_INTERVAL * 0.8)`
(96 ms). -/
def spookyNormalIter : List EffectEv :=
  [EffectEv.checkStop, EffectEv.sendColor, EffectEv.sleepMs 96]

/-- For each dispatch in a trace, the milliseconds of sleep accumulated since
the most recent cancellation check (`cur` carries the running total). A stop
raised just after a check can be overshot by exactly this much sleeping
before the dispatch still happens. -/
def dispatchDelays : List EffectEv → Nat → List Nat
  | [], _ => []
  | EffectEv.checkStop :: rest, _ => dispatchDelays rest 0
  | EffectEv.sleepMs ms :: rest, cur => dispatchDelays rest (cur + ms)
  | EffectEv.sendColor :: rest, cur => cur :: dispatchDelays rest cur

/-- Worst-case sleep time separating a cancellation check from a later
dispatch of the same trace. -/
def worstDispatchDelay (t : List EffectEv) : Nat :=
  (dispatchDelays t 0).foldr max 0

/-- Total sleeping in a trace (bounds how long an iteration takes, hence how
late the next cancellation check can come). -/
def totalSleep : List EffectEv → Nat
  | [] => 0
  | EffectEv.sleepMs ms :: rest => ms + totalSleep rest
  | _ :: rest => totalSleep rest

/-! ## __main__.py, rescan branch of the session loop -/

/-- Insertion step of the model of Python `sorted` on address strings. -/
def insort (s : String) : List String → List String
  | [] => [s]
  | x :: xs => if s < x then s :: x :: xs else x :: insort s xs

/-- Python `sorted` on a list of address strings (only membership in the
sorted list is consumed downstream, by `ip in ips`). -/
def sorted_list (xs : List String) : List String := xs.foldr insort []

/-- Outcome of one pass through the `effect == "rescan"` branch of `main`. -/
structure RescanOut where
  table : List (String × JVal)
  cacheSaved : Bool
  selected : List String
  prompted : Bool

/-- The rescan branch of `main`: re-scan, `save_cache` only under
`if discovered:`, `ips = sorted(discovered.keys())`, restrict the old
selection to surviving addresses, and fall back to the `reselect` choice of
`prompt_user_selection` only when the restriction is empty. -/
def rescan_step (parse : List Char → Option JVal)
    (transport : String → Option (List Char)) (scanIps : List String)
    (selected : List String) (reselect : List String) : RescanOut :=
  let discovered := scan_ip_range parse transport scanIps
  let saved := !discovered.isEmpty
  let ips := sorted_list (table_keys discovered)
  let selected2 := selected.filter (fun ip => ips.contains ip)
  if selected2.isEmpty then
    { table := discovered, cacheSaved := saved, selected := reselect, prompted := true }
  else
    { table := discovered, cacheSaved := saved, selected := selected2, prompted := false }

/-! ## Concrete probe environments used to exercise the scanner -/

/-- A parse function recognizing exactly the two-character empty-object
reply text and mapping it to the empty JSON object, as `json.loads` does. -/
def parse_empty_obj : List Char → Option JVal :=
  fun s => if s = ['{', '}'] then some (JVal.obj []) else none

/-- A transport on which every probed address answers with the empty-object
reply text. -/
def transport_empty_obj : String → Option (List Char) :=
  fun _ => some ['{', '}']

/-- A transport on which every probe times out. -/
def transport_silent : String → Option (List Char) :=
  fun _ => none

/-- A parse function that fails on every input. -/
def parse_fail_all : List Char → Option JVal :=
  fun _ => none

/-! ## Shared lemmas -/

/-- An address is a key of the scanned table exactly when it was probed and
its probe came back with a truthy decoded payload. -/
lemma scan_mem_key_iff (parse : List Char → Option JVal)
    (transport : String → Option (List Char)) (ips : List String) (ip : String) :
    ip ∈ table_keys (scan_ip_range parse transport ips) ↔
      ip ∈ ips ∧ ∃ v, probe_ip parse (transport ip) = some v ∧ v.truthy = true := by
  induction ips with
  | nil => simp [scan_ip_range, table_keys]
  | cons a rest ih =>
    simp only [List.mem_cons]
    cases hp : probe_ip parse (transport a) with
    | none =>
      simp only [scan_ip_range, hp]
      rw [ih]
      constructor
      · rintro ⟨h1, h2⟩
        exact ⟨Or.inr h1, h2⟩
      · rintro ⟨h1 | h1, v, hv, ht⟩
        · rw [h1, hp] at hv
          cases hv
        · exact ⟨h1, v, hv, ht⟩
    | some v =>
      by_cases ht : v.truthy = true
      · simp only [scan_ip_range, hp, if_pos ht, table_keys, List.map_cons,
          List.mem_cons]
        rw [show (List.map Prod.fst (scan_ip_range parse transport rest)) =
          table_keys (scan_ip_range parse transport rest) from rfl, ih]
        constructor
        · rintro (h1 | ⟨h1, h2⟩)
          · exact ⟨Or.inl h1, v, by rw [h1]; exact hp, ht⟩
          · exact ⟨Or.inr h1, h2⟩
        · rintro ⟨h1 | h1, hv⟩
          · exact Or.inl h1
          · exact Or.inr ⟨h1, hv⟩
      · simp only [scan_ip_range, hp, if_neg ht]
        rw [ih]
        constructor
        · rintro ⟨h1, h2⟩
          exact ⟨Or.inr h1, h2⟩
        · rintro ⟨h1 | h1, v2, hv2, ht2⟩
          · rw [h1, hp] at hv2
            injection hv2 with hv2
            rw [hv2] at ht
            exact absurd ht2 ht
          · exact ⟨h1, v2, hv2, ht2⟩

/-- Dropping up to the first opening brace lands on an opening brace when the
text has one. -/
lemma head_dropWhile_brace (l : List Char) (hl : '{' ∈ l) :
    (l.dropWhile (fun c => c ≠ '{')).head? = some '{' := by
  induction l with
  | nil => cases hl
  | cons c cs ih =>
    by_cases hc : c = '{'
    · subst hc
      simp [List.dropWhile]
    · rw [List.mem_cons] at hl
      rcases hl with h | h
      · exact absurd h.symm hc
      · simpa [List.dropWhile, hc] using ih h

/-- The slice taken by the lenient decoder is a suffix of the reply whose
discarded front holds no opening brace, and it starts at the first opening
brace when the reply has one. -/
lemma lenient_slice_spec (data : List Char) :
    ∃ pre, data = pre ++ lenient_slice data ∧ '{' ∉ pre ∧
      ('{' ∈ data → (lenient_slice data).head? = some '{') := by
  unfold lenient_slice
  by_cases hb : '{' ∈ data
  · rw [if_pos hb]
    refine ⟨data.takeWhile (fun c => c ≠ '{'), ?_, ?_, ?_⟩
    · exact (List.takeWhile_append_dropWhile _ data).symm
    · intro hmem
      have := List.mem_takeWhile_imp hmem
      simp at this
    · intro _
      exact head_dropWhile_brace data hb
  · rw [if_neg hb]
    exact ⟨[], rfl, by simp, fun h => absurd h hb⟩

/-- Membership in an insertion step of the `sorted` model. -/
lemma mem_insort (s a : String) (l : List String) :
    a ∈ insort s l ↔ a = s ∨ a ∈ l := by
  induction l with
  | nil => simp [insort]
  | cons x xs ih =>
    simp only [insort]
    split_ifs with h
    · simp [List.mem_cons]
    · simp only [List.mem_cons, ih]
      tauto

/-- `sorted` only permutes: membership is unchanged. -/
lemma mem_sorted_list (a : String) (l : List String) :
    a ∈ sorted_list l ↔ a ∈ l := by
  induction l with
  | nil => simp [sorted_list]
  | cons x xs ih =>
    simp only [sorted_list, List.foldr] at ih ⊢
    rw [mem_insort, ih, List.mem_cons]

/-- `contains` over the sorted key list agrees with `contains` over the raw
key list. -/
lemma contains_sorted_list (l : List String) (a : String) :
    (sorted_list l).contains a = l.contains a := by
  rcases h : l.contains a with _ | _
  · rw [List.contains_eq_any_beq] at h ⊢
    simp only [List.any_eq_false] at h ⊢
    intro x hx
    exact h x ((mem_sorted_list x l).mp hx)
  · rw [List.contains_eq_any_beq] at h ⊢
    simp only [List.any_eq_true] at h ⊢
    obtain ⟨x, hx, hbeq⟩ := h
    exact ⟨x, (mem_sorted_list x l).mpr hx, hbeq⟩

/-- Python truncation agrees with the floor on nonnegative floats. -/
lemma pyInt_of_nonneg {x : ℝ} (h : 0 ≤ x) : pyInt x = ⌊x⌋ := if_pos h

/-- Truncating a nonnegative float stays nonnegative. -/
lemma pyInt_nonneg {x : ℝ} (h : 0 ≤ x) : 0 ≤ pyInt x := by
  rw [pyInt_of_nonneg h]
  exact Int.floor_nonneg.mpr h

/-- Truncation of 255 itself. -/
lemma pyInt_255 : pyInt (255 : ℝ) = 255 := by
  rw [pyInt_of_nonneg (by norm_num)]
  rw [show (255 : ℝ) = ((255 : ℤ) : ℝ) by norm_num, Int.floor_intCast]

/-- Truncation of 0 itself. -/
lemma pyInt_zero : pyInt (0 : ℝ) = 0 := by
  rw [pyInt_of_nonneg le_rfl]
  exact Int.floor_zero

/-- Truncating a channel already clamped into `[0, 255]` lands in `[0, 255]`. -/
lemma pyInt_clamp255_mem (e : ℝ) :
    0 ≤ pyInt (max 0 (min 255 e)) ∧ pyInt (max 0 (min 255 e)) ≤ 255 := by
  have h0 : (0 : ℝ) ≤ max 0 (min 255 e) := le_max_left _ _
  have h1 : max 0 (min 255 e) ≤ 255 := max_le (by norm_num) (min_le_left _ _)
  rw [pyInt_of_nonneg h0]
  refine ⟨Int.floor_nonneg.mpr h0, ?_⟩
  have : (⌊max 0 (min 255 e)⌋ : ℝ) ≤ 255 := le_trans (Int.floor_le _) h1
  exact_mod_cast this

/-- Truncating 255 times a channel in `[0, 1]` lands in `[0, 255]`. -/
lemma pyInt_unit_scale {c : ℝ} (h0 : 0 ≤ c) (h1 : c ≤ 1) :
    0 ≤ pyInt (c * 255) ∧ pyInt (c * 255) ≤ 255 := by
  have hx0 : 0 ≤ c * 255 := by positivity
  have hx1 : c * 255 ≤ 255 := by nlinarith
  rw [pyInt_of_nonneg hx0]
  refine ⟨Int.floor_nonneg.mpr hx0, ?_⟩
  have : (⌊c * 255⌋ : ℝ) ≤ 255 := le_trans (Int.floor_le _) hx1
  exact_mod_cast this

/-- Python float `%` with a positive modulus is nonnegative. -/
lemma pyMod_nonneg (x : ℝ) {m : ℝ} (hm : 0 < m) : 0 ≤ pyMod x m := by
  unfold pyMod
  have h1 : (⌊x / m⌋ : ℝ) ≤ x / m := Int.floor_le _
  have h2 : m * (⌊x / m⌋ : ℝ) ≤ m * (x / m) := mul_le_mul_of_nonneg_left h1 hm.le
  have h3 : m * (x / m) = x := by
    field_simp
  linarith

/-- Python float `%` with a positive modulus stays below the modulus. -/
lemma pyMod_lt (x : ℝ) {m : ℝ} (hm : 0 < m) : pyMod x m < m := by
  unfold pyMod
  have h1 : x / m < (⌊x / m⌋ : ℝ) + 1 := Int.lt_floor_add_one _
  have h2 : m * (x / m) < m * ((⌊x / m⌋ : ℝ) + 1) := by
    exact mul_lt_mul_of_pos_left h1 hm
  have h3 : m * (x / m) = x := by
    field_simp
  nlinarith

/-- Every channel produced by `colorsys.hsv_to_rgb` lies in `[0, 1]` when the
hue is nonnegative and saturation and value lie in `[0, 1]`. -/
lemma colorsys_channel_bounds (h s v : ℝ) (hh : 0 ≤ h) (hs0 : 0 ≤ s)
    (hs1 : s ≤ 1) (hv0 : 0 ≤ v) (hv1 : v ≤ 1) :
    (0 ≤ (colorsys_hsv_to_rgb h s v).1 ∧ (colorsys_hsv_to_rgb h s v).1 ≤ 1) ∧
    (0 ≤ (colorsys_hsv_to_rgb h s v).2.1 ∧ (colorsys_hsv_to_rgb h s v).2.1 ≤ 1) ∧
    (0 ≤ (colorsys_hsv_to_rgb h s v).2.2 ∧ (colorsys_hsv_to_rgb h s v).2.2 ≤ 1) := by
  have hh6 : 0 ≤ h * 6 := by positivity
  have hfl : (pyInt (h * 6) : ℝ) ≤ h * 6 := by
    rw [pyInt_of_nonneg hh6]
    exact Int.floor_le _
  have hfl2 : h * 6 < (pyInt (h * 6) : ℝ) + 1 := by
    rw [pyInt_of_nonneg hh6]
    exact Int.lt_floor_add_one _
  have hF0 : 0 ≤ h * 6 - (pyInt (h * 6) : ℝ) := by linarith
  have hF1 : h * 6 - (pyInt (h * 6) : ℝ) ≤ 1 := by linarith
  have hv : 0 ≤ v ∧ v ≤ 1 := ⟨hv0, hv1⟩
  have hp : 0 ≤ v * (1 - s) ∧ v * (1 - s) ≤ 1 := by
    constructor
    · exact mul_nonneg hv0 (by linarith)
    · nlinarith
  have hq : 0 ≤ v * (1 - s * (h * 6 - (pyInt (h * 6) : ℝ))) ∧
      v * (1 - s * (h * 6 - (pyInt (h * 6) : ℝ))) ≤ 1 := by
    constructor
    · apply mul_nonneg hv0
      nlinarith
    · nlinarith
  have ht : 0 ≤ v * (1 - s * (1 - (h * 6 - (pyInt (h * 6) : ℝ)))) ∧
      v * (1 - s * (1 - (h * 6 - (pyInt (h * 6) : ℝ)))) ≤ 1 := by
    constructor
    · apply mul_nonneg hv0
      nlinarith
    · nlinarith
  simp only [colorsys_hsv_to_rgb]
  split_ifs
  · exact ⟨hv, hv, hv⟩
  · exact ⟨hv, ht, hp⟩
  · exact ⟨hq, hv, hp⟩
  · exact ⟨hp, hv, ht⟩
  · exact ⟨hp, hq, hv⟩
  · exact ⟨ht, hp, hv⟩
  · exact ⟨hv, hp, hq⟩

/-- Upper estimate for the natural log of 17, via
`log 17 = 4 log 2 + log (17/16)` and `log (1 + x) ≤ x`. -/
lemma log_seventeen_lt : Real.log 17 < 2.8351 := by
  have h16 : Real.log 17 = Real.log 16 + Real.log (17 / 16) := by
    rw [← Real.log_mul (by norm_num) (by norm_num)]
    norm_num
  have h2 : Real.log 16 = 4 * Real.log 2 := by
    rw [show (16 : ℝ) = 2 ^ (4 : ℕ) by norm_num, Real.log_pow]
    push_cast
    ring
  have h3 : Real.log (17 / 16) ≤ 17 / 16 - 1 :=
    Real.log_le_sub_one_of_pos (by norm_num)
  have h4 : Real.log 2 < 0.6931471808 := Real.log_two_lt_d9
  rw [h16, h2]
  nlinarith

/-- Lower estimate for the natural log of 55, via `log 55 ≥ 5 log 2`. -/
lemma log_fiftyfive_gt : 3.4657 < Real.log 55 := by
  have h1 : Real.log 32 < Real.log 55 := by
    apply Real.log_lt_log (by norm_num) (by norm_num)
  have h2 : Real.log 32 = 5 * Real.log 2 := by
    rw [show (32 : ℝ) = 2 ^ (5 : ℕ) by norm_num, Real.log_pow]
    push_cast
    ring
  have h3 : (0.6931471803 : ℝ) < Real.log 2 := Real.log_two_gt_d9
  nlinarith

/-- Below 1000 the clamp pins the Kelvin input at 1000. -/
lemma clamp_kelvin_of_lt {k : ℤ} (h : k < 1000) : clamp_kelvin k = 1000 := by
  unfold clamp_kelvin
  rw [min_eq_right (by omega : k ≤ 40000), max_eq_left (by omega : k ≤ 1000)]

/-- Above 40000 the clamp pins the Kelvin input at 40000. -/
lemma clamp_kelvin_of_gt {k : ℤ} (h : 40000 < k) : clamp_kelvin k = 40000 := by
  unfold clamp_kelvin
  rw [min_eq_left (by omega : (40000 : ℤ) ≤ k),
    max_eq_right (by norm_num : (1000 : ℤ) ≤ 40000)]

/-- The whole conversion depends on the input only through the clamp. -/
lemma kelvin_to_rgb_eq_of_clamp_eq {k1 k2 : ℤ}
    (h : clamp_kelvin k1 = clamp_kelvin k2) :
    kelvin_to_rgb_255 k1 = kelvin_to_rgb_255 k2 := by
  unfold kelvin_to_rgb_255
  rw [h]

/-- Every channel of the Kelvin conversion lies in `[0, 255]`, for every
integer input: each branch is either the constant 255 or 0 or a clamped
expression, and truncation preserves the clamp. -/
lemma kelvin_channels_in_range (k : ℤ) : rgb_in_range (kelvin_to_rgb_255 k) := by
  unfold kelvin_to_rgb_255 rgb_in_range
  refine ⟨?_, ?_, ?_, ?_, ?_, ?_⟩
  · by_cases h : ((clamp_kelvin k : ℝ)) / 100 ≤ 66
    · simp only [if_pos h, pyInt_255]
      norm_num
    · simp only [if_neg h]
      exact (pyInt_clamp255_mem _).1
  · by_cases h : ((clamp_kelvin k : ℝ)) / 100 ≤ 66
    · simp only [if_pos h, pyInt_255]
      norm_num
    · simp only [if_neg h]
      exact (pyInt_clamp255_mem _).2
  · exact (pyInt_clamp255_mem _).1
  · exact (pyInt_clamp255_mem _).2
  · by_cases h : (66 : ℝ) ≤ ((clamp_kelvin k : ℝ)) / 100
    · simp only [if_pos h, pyInt_255]
      norm_num
    · simp only [if_neg h]
      by_cases h19 : ((clamp_kelvin k : ℝ)) / 100 ≤ 19
      · simp only [if_pos h19, pyInt_zero]
        norm_num
      · simp only [if_neg h19]
        exact (pyInt_clamp255_mem _).1
  · by_cases h : (66 : ℝ) ≤ ((clamp_kelvin k : ℝ)) / 100
    · simp only [if_pos h, pyInt_255]
      norm_num
    · simp only [if_neg h]
      by_cases h19 : ((clamp_kelvin k : ℝ)) / 100 ≤ 19
      · simp only [if_pos h19, pyInt_zero]
        norm_num
      · simp only [if_neg h19]
        exact (pyInt_clamp255_mem _).2

/-- At 2700 K the red branch is the constant 255. -/
lemma kelvin_2700_red : (kelvin_to_rgb_255 2700).1 = 255 := by
  simp only [kelvin_to_rgb_255]
  rw [show clamp_kelvin 2700 = 2700 by decide]
  rw [if_pos (by norm_num : (((2700 : ℤ) : ℝ)) / 100 ≤ 66)]
  exact pyInt_255

/-- At 6500 K the red branch is still the constant 255. -/
lemma kelvin_6500_red : (kelvin_to_rgb_255 6500).1 = 255 := by
  simp only [kelvin_to_rgb_255]
  rw [show clamp_kelvin 6500 = 6500 by decide]
  rw [if_pos (by norm_num : (((6500 : ℤ) : ℝ)) / 100 ≤ 66)]
  exact pyInt_255

/-- The blue channel at 2700 K is the truncated clamped log fit at 17. -/
lemma kelvin_2700_blue_eq : (kelvin_to_rgb_255 2700).2.2 =
    ⌊max 0 (min 255 (138.5177312231 * Real.log 17 - 305.0447927307))⌋ := by
  simp only [kelvin_to_rgb_255]
  rw [show clamp_kelvin 2700 = 2700 by decide]
  rw [if_neg (by norm_num : ¬ (66 : ℝ) ≤ (((2700 : ℤ) : ℝ)) / 100)]
  rw [if_neg (by norm_num : ¬ (((2700 : ℤ) : ℝ)) / 100 ≤ 19)]
  rw [show (((2700 : ℤ) : ℝ)) / 100 - 10 = 17 by norm_num]
  exact pyInt_of_nonneg (le_max_left _ _)

/-- The blue channel at 6500 K is the truncated clamped log fit at 55. -/
lemma kelvin_6500_blue_eq : (kelvin_to_rgb_255 6500).2.2 =
    ⌊max 0 (min 255 (138.5177312231 * Real.log 55 - 305.0447927307))⌋ := by
  simp only [kelvin_to_rgb_255]
  rw [show clamp_kelvin 6500 = 6500 by decide]
  rw [if_neg (by norm_num : ¬ (66 : ℝ) ≤ (((6500 : ℤ) : ℝ)) / 100)]
  rw [if_neg (by norm_num : ¬ (((6500 : ℤ) : ℝ)) / 100 ≤ 19)]
  rw [show (((6500 : ℤ) : ℝ)) / 100 - 10 = 55 by norm_num]
  exact pyInt_of_nonneg (le_max_left _ _)

/-- The 2700 K blue channel is below 88. -/
lemma kelvin_2700_blue_lt : (kelvin_to_rgb_255 2700).2.2 < 88 := by
  rw [kelvin_2700_blue_eq]
  have he : 138.5177312231 * Real.log 17 - 305.0447927307 < 88 := by
    have := log_seventeen_lt
    nlinarith
  have hcl : max 0 (min 255 (138.5177312231 * Real.log 17 - 305.0447927307)) <
      88 :=
    max_lt (by norm_num) (lt_of_le_of_lt (min_le_right _ _) he)
  rw [Int.floor_lt]
  push_cast
  exact hcl

/-- The 6500 K blue channel is at least 100. -/
lemma kelvin_6500_blue_ge : 100 ≤ (kelvin_to_rgb_255 6500).2.2 := by
  rw [kelvin_6500_blue_eq]
  have he : (100 : ℝ) ≤ 138.5177312231 * Real.log 55 - 305.0447927307 := by
    have := log_fiftyfive_gt
    nlinarith
  have hcl : (100 : ℝ) ≤
      max 0 (min 255 (138.5177312231 * Real.log 55 - 305.0447927307)) :=
    le_trans (le_min (by norm_num) he) (le_max_right _ _)
  rw [Int.le_floor]
  push_cast
  exact hcl

/-! ## Claim theorems -/

/-- Claim C1, counterexample: the strobe branch of `run_spooky` dispatches a
color command after 300 ms of sleeping since the sole `stop_event` check of
its iteration, so a stop raised just after that check is not honored within
one send-interval (120 ms): commands attributable to the effect can still go
out 2.5 send-intervals later. -/
theorem spooky_strobe_exceeds_send_interval :
    ¬ worstDispatchDelay spookyStrobeIter ≤ sendIntervalMs := by
  decide

/-- Claim C1, amended: `run_spooky` observes `stop_event` only at the top of
each loop iteration. On the ordinary path every dispatch happens at the
check itself (no sleep in between) and the iteration sleeps 96 ms before the
next check, so cancellation is honored within one send-interval there; but
the strobe branch dispatches up to 300 ms of accumulated sleep after its
sole check and sleeps 360 ms in total, so dispatches are only guaranteed to
cease within one full loop iteration — up to three send-intervals — not
within one send-interval. -/
theorem spooky_cancellation_latency :
    worstDispatchDelay spookyNormalIter = 0 ∧
    totalSleep spookyNormalIter = 96 ∧
    totalSleep spookyNormalIter ≤ sendIntervalMs ∧
    worstDispatchDelay spookyStrobeIter = 300 ∧
    totalSleep spookyStrobeIter = 360 ∧
    spookyNormalIter.head? = some EffectEv.checkStop ∧
    spookyStrobeIter.head? = some EffectEv.checkStop := by
  decide

/-- Claim C2, counterexample: `set_color_rgb` called with `r = 300` and
`g = -5` builds a payload carrying those values unchanged, outside
`[0, 255]` — nothing is clamped. -/
theorem set_color_rgb_payload_out_of_range :
    ¬ params_in_range (set_color_rgb_payload 300 (-5) 0 0 100) := by
  decide

/-- Claim C2, amended: `set_color_rgb` performs no clamping at all — the
payload carries the five arguments verbatim, so the payload is within the
device ranges exactly when the inputs already are (range enforcement is left
to the callers, which clamp before calling). -/
theorem set_color_rgb_passthrough (r g b transition dimming : ℤ) :
    (set_color_rgb_payload r g b transition dimming).r = r ∧
    (set_color_rgb_payload r g b transition dimming).g = g ∧
    (set_color_rgb_payload r g b transition dimming).b = b ∧
    (set_color_rgb_payload r g b transition dimming).transition = transition ∧
    (set_color_rgb_payload r g b transition dimming).dimming = dimming ∧
    (params_in_range (set_color_rgb_payload r g b transition dimming) ↔
      0 ≤ r ∧ r ≤ 255 ∧ 0 ≤ g ∧ g ≤ 255 ∧ 0 ≤ b ∧ b ≤ 255 ∧
        0 ≤ dimming ∧ dimming ≤ 100 ∧ 0 ≤ transition) :=
  ⟨rfl, rfl, rfl, rfl, rfl, Iff.rfl⟩

/-- Claim C3, counterexample: an address that does deliver a reply — the
empty JSON object — is nevertheless absent from the scanned table, because
`if res:` tests Python truthiness of the parsed payload, not arrival of a
datagram. -/
theorem scan_drops_replied_falsy_address :
    (transport_empty_obj "192.168.1.9").isSome = true ∧
    (probe_ip parse_empty_obj (transport_empty_obj "192.168.1.9")).isSome = true ∧
    "192.168.1.9" ∉
      table_keys (scan_ip_range parse_empty_obj transport_empty_obj ["192.168.1.9"]) := by
  refine ⟨rfl, rfl, ?_⟩
  decide

/-- Claim C3, amended: the key set of `scan_ip_range` is exactly the probed
addresses whose probe delivered a reply with a truthy decoded payload. An
address whose probe timed out or hit a transport error is omitted entirely
(never stored with an empty value), and so is an address whose reply decoded
to a falsy value such as the empty object. -/
theorem scan_key_set_characterization (parse : List Char → Option JVal)
    (transport : String → Option (List Char)) (ips : List String) (ip : String) :
    ip ∈ table_keys (scan_ip_range parse transport ips) ↔
      ip ∈ ips ∧ ∃ v, probe_ip parse (transport ip) = some v ∧ v.truthy = true :=
  scan_mem_key_iff parse transport ips ip

/-- Claim C7: decoding a received datagram is total and never aborts the
scan — `probe_ip` wraps every received reply in `some`; the reply is parsed
from its first opening brace (the discarded front holds no brace, and the
slice starts on a brace whenever the reply has one); and when the text is
not syntactically valid structured data the decoder returns the sentinel
object holding the whole decoded reply under the key `_raw` instead of an
error. -/
theorem decode_reply_lenient_total (parse : List Char → Option JVal)
    (data : List Char) :
    (∀ v, parse (lenient_slice data) = some v → decode_reply parse data = v) ∧
    (parse (lenient_slice data) = none →
      decode_reply parse data = JVal.obj [("_raw", JVal.str (String.mk data))]) ∧
    (∃ pre, data = pre ++ lenient_slice data ∧ '{' ∉ pre ∧
      ('{' ∈ data → (lenient_slice data).head? = some '{')) ∧
    probe_ip parse (some data) = some (decode_reply parse data) := by
  refine ⟨?_, ?_, lenient_slice_spec data, rfl⟩
  · intro v hv
    unfold decode_reply
    rw [hv]
  · intro hv
    unfold decode_reply
    rw [hv]

/-- Claim C7, witness: a reply that fails to parse is decoded to the `_raw`
sentinel rather than an error. -/
theorem decode_reply_witness :
    parse_fail_all (lenient_slice ['h', 'i']) = none ∧
    decode_reply parse_fail_all ['h', 'i'] =
      JVal.obj [("_raw", JVal.str (String.mk ['h', 'i']))] :=
  ⟨rfl, (decode_reply_lenient_total parse_fail_all ['h', 'i']).2.1 rfl⟩

/-- Claim C8: for every selection, every color and every assignment of
per-address transport outcomes, `run_rgba` makes exactly one send attempt
per address of the selection, in order, each carrying the same `setPilot`
payload — the attempt list does not depend on which sends fail, so a failure
at one address never blocks or cancels the sends to the others. -/
theorem run_rgba_one_send_per_address (outcome : String → Bool)
    (ips : List String) (r g b dimming : ℤ) :
    (run_rgba outcome ips r g b dimming).map (fun a => (a.ip, a.payload)) =
      ips.map (fun ip => (ip, set_color_rgb_payload r g b 0 dimming)) := by
  simp [run_rgba, set_color_rgb, send_udp]

/-- Claim C9, counterexample: a rescan in which no device responds produces
an empty table and `save_cache` is skipped (`if discovered:` fails), so the
result of this rescan is not persisted, contrary to the claim that every
rescan persists its result. -/
theorem rescan_empty_scan_skips_cache_save :
    ¬ (rescan_step parse_empty_obj transport_silent ["192.168.1.5"]
        ["192.168.1.5"] []).cacheSaved = true := by
  decide

/-- Claim C9, amended: on a rescan the session loop re-runs the scanner over
the address range; it persists the result via `save_cache` only when the new
table is non-empty (an empty rescan leaves the cache untouched); it replaces
the current selection by the old selection restricted, in its original order
(a sublist), to addresses that are keys of the new table; and it asks the
user to reselect exactly when that restriction is empty. -/
theorem rescan_step_behavior (parse : List Char → Option JVal)
    (transport : String → Option (List Char)) (scanIps : List String)
    (selected : List String) (reselect : List String) :
    (rescan_step parse transport scanIps selected reselect).table =
      scan_ip_range parse transport scanIps ∧
    (rescan_step parse transport scanIps selected reselect).cacheSaved =
      !(rescan_step parse transport scanIps selected reselect).table.isEmpty ∧
    (selected.filter (fun ip =>
        (table_keys (scan_ip_range parse transport scanIps)).contains ip)).Sublist
      selected ∧
    (rescan_step parse transport scanIps selected reselect).prompted =
      (selected.filter (fun ip =>
        (table_keys (scan_ip_range parse transport scanIps)).contains ip)).isEmpty ∧
    (rescan_step parse transport scanIps selected reselect).selected =
      (if (selected.filter (fun ip =>
          (table_keys (scan_ip_range parse transport scanIps)).contains ip)).isEmpty
        then reselect
        else selected.filter (fun ip =>
          (table_keys (scan_ip_range parse transport scanIps)).contains ip)) := by
  have hfilter : selected.filter (fun ip =>
      (sorted_list (table_keys (scan_ip_range parse transport scanIps))).contains ip) =
      selected.filter (fun ip =>
        (table_keys (scan_ip_range parse transport scanIps)).contains ip) := by
    apply List.filter_congr
    intro x _
    exact contains_sorted_list _ x
  unfold rescan_step
  simp only [hfilter]
  split_ifs with h
  · exact ⟨rfl, rfl, List.filter_sublist _, h.symm, rfl⟩
  · have h2 : (List.filter (fun ip =>
        (table_keys (scan_ip_range parse transport scanIps)).contains ip)
          selected).isEmpty = false := by
      rcases hb : (List.filter (fun ip =>
          (table_keys (scan_ip_range parse transport scanIps)).contains ip)
            selected).isEmpty
      · rfl
      · exact absurd hb h
    exact ⟨rfl, rfl, List.filter_sublist _, h2.symm, rfl⟩

/-- Claim C10: a probed address whose reply decodes to the empty JSON object
— falsy in Python — is omitted from the scanned table even though a datagram
arrived; inclusion requires a truthy parsed payload. -/
theorem scan_omits_falsy_reply (parse : List Char → Option JVal)
    (transport : String → Option (List Char)) (ips : List String) (ip : String)
    (h : probe_ip parse (transport ip) = some (JVal.obj [])) :
    ip ∉ table_keys (scan_ip_range parse transport ips) := by
  rw [scan_mem_key_iff]
  rintro ⟨-, v, hv, ht⟩
  rw [h] at hv
  injection hv with hv
  rw [← hv] at ht
  exact absurd ht (by decide)

/-- Claim C10, witness: the empty-object responder is dropped from a
concrete scan. -/
theorem scan_omits_falsy_reply_witness :
    probe_ip parse_empty_obj (transport_empty_obj "192.168.1.7") =
      some (JVal.obj []) ∧
    "192.168.1.7" ∉ table_keys (scan_ip_range parse_empty_obj transport_empty_obj
      ["192.168.1.7", "192.168.1.8"]) :=
  ⟨rfl, scan_omits_falsy_reply parse_empty_obj transport_empty_obj _ _ rfl⟩

/-- Claim C4, counterexample: the blue channel at 6500 K is not shifted down
relative to the blue channel at 2700 K — it is higher (at least 100 against
less than 88), so the claimed relative ordering fails. -/
theorem kelvin_blue_not_shifted_down :
    ¬ (kelvin_to_rgb_255 6500).2.2 < (kelvin_to_rgb_255 2700).2.2 := by
  have h1 := kelvin_2700_blue_lt
  have h2 := kelvin_6500_blue_ge
  omega

/-- Claim C4, amended: 2700 K is a warm triple — red is 255 and blue is
strictly below red; 6500 K has red exactly 255 and its blue channel shifted
up, not down, relative to the blue at 2700 K. These orderings are robust: the
proofs use only coarse log bounds, not the exact fit constants. -/
theorem kelvin_warm_cool_ordering :
    (kelvin_to_rgb_255 2700).1 = 255 ∧
    (kelvin_to_rgb_255 2700).2.2 < (kelvin_to_rgb_255 2700).1 ∧
    (kelvin_to_rgb_255 6500).1 = 255 ∧
    (kelvin_to_rgb_255 2700).2.2 < (kelvin_to_rgb_255 6500).2.2 := by
  have h27r := kelvin_2700_red
  have h1 := kelvin_2700_blue_lt
  have h2 := kelvin_6500_blue_ge
  refine ⟨h27r, ?_, kelvin_6500_red, by omega⟩
  rw [h27r]
  omega

/-- Claim C5, counterexample: with value 2 — a real input outside `[0, 1]` —
`hsv_to_rgb_255` returns channel 510, outside `[0, 255]`: not every real
saturation and value input normalizes. -/
theorem hsv_value_above_one_overflows :
    hsv_to_rgb_255 0 0 2 = (510, 510, 510) ∧
    ¬ rgb_in_range (hsv_to_rgb_255 0 0 2) := by
  have hmod : pyMod 0 360 = 0 := by
    unfold pyMod
    norm_num
  have h1 : hsv_to_rgb_255 0 0 2 = (510, 510, 510) := by
    simp only [hsv_to_rgb_255, hmod]
    norm_num
    simp only [colorsys_hsv_to_rgb, if_pos rfl]
    have h510 : pyInt ((2 : ℝ) * 255) = 510 := by
      rw [pyInt_of_nonneg (by norm_num)]
      rw [show (2 : ℝ) * 255 = ((510 : ℤ) : ℝ) by norm_num, Int.floor_intCast]
    simp [h510]
  refine ⟨h1, ?_⟩
  rw [h1]
  unfold rgb_in_range
  norm_num

/-- Claim C5, amended: `hsv_to_rgb_255` is pure and total — any real hue is
reduced modulo 360 with no error path — but the `[0, 255]` output guarantee
needs saturation and value in `[0, 1]`: under those bounds every returned
channel lies in `[0, 255]` for every real hue, while a value outside `[0, 1]`
can leave the range (see the counterexample). -/
theorem hsv_to_rgb_255_unit_in_range (h_deg s v : ℝ) (hs0 : 0 ≤ s)
    (hs1 : s ≤ 1) (hv0 : 0 ≤ v) (hv1 : v ≤ 1) :
    rgb_in_range (hsv_to_rgb_255 h_deg s v) := by
  have hh0 : 0 ≤ pyMod h_deg 360 / 360 :=
    div_nonneg (pyMod_nonneg _ (by norm_num)) (by norm_num)
  obtain ⟨⟨c10, c11⟩, ⟨c20, c21⟩, c30, c31⟩ :=
    colorsys_channel_bounds (pyMod h_deg 360 / 360) s v hh0 hs0 hs1 hv0 hv1
  simp only [hsv_to_rgb_255, rgb_in_range]
  exact ⟨(pyInt_unit_scale c10 c11).1, (pyInt_unit_scale c10 c11).2,
    (pyInt_unit_scale c20 c21).1, (pyInt_unit_scale c20 c21).2,
    (pyInt_unit_scale c30 c31).1, (pyInt_unit_scale c30 c31).2⟩

/-- Claim C5, witness: the in-range guarantee at hue 90, saturation 1/2,
value 1. -/
theorem hsv_to_rgb_255_unit_in_range_witness :
    ((0 : ℝ) ≤ 1 / 2 ∧ (1 / 2 : ℝ) ≤ 1 ∧ (0 : ℝ) ≤ 1 ∧ (1 : ℝ) ≤ 1) ∧
    rgb_in_range (hsv_to_rgb_255 90 (1 / 2) 1) :=
  ⟨by norm_num, hsv_to_rgb_255_unit_in_range 90 (1 / 2) 1 (by norm_num)
    (by norm_num) (by norm_num) (by norm_num)⟩

/-- Claim C6: `kelvin_to_rgb_255` is total over the integers, clamps its
input to `[1000, 40000]` first — every input below 1000 yields the 1000
result and every input above 40000 yields the 40000 result — and every
returned channel lies in `[0, 255]`. -/
theorem kelvin_to_rgb_clamped_total (k : ℤ) :
    rgb_in_range (kelvin_to_rgb_255 k) ∧
    (k < 1000 → kelvin_to_rgb_255 k = kelvin_to_rgb_255 1000) ∧
    (40000 < k → kelvin_to_rgb_255 k = kelvin_to_rgb_255 40000) := by
  refine ⟨kelvin_channels_in_range k, ?_, ?_⟩
  · intro h
    apply kelvin_to_rgb_eq_of_clamp_eq
    rw [clamp_kelvin_of_lt h]
    decide
  · intro h
    apply kelvin_to_rgb_eq_of_clamp_eq
    rw [clamp_kelvin_of_gt h]
    decide

/-- Claim C6, witness: both clamp directions exercised at 500 K and
50000 K. -/
theorem kelvin_to_rgb_clamped_total_witness :
    ((500 : ℤ) < 1000 ∧ kelvin_to_rgb_255 500 = kelvin_to_rgb_255 1000) ∧
    ((40000 : ℤ) < 50000 ∧ kelvin_to_rgb_255 50000 = kelvin_to_rgb_255 40000) :=
  ⟨⟨by norm_num, (kelvin_to_rgb_clamped_total 500).2.1 (by norm_num)⟩,
   ⟨by norm_num, (kelvin_to_rgb_clamped_total 50000).2.2 (by norm_num)⟩⟩

end WizLights
